import Mathlib

/-!
Shallow embedding of src/tough/src/schema/de.rs: the validating key-map
decoder (deserialize_keys / validate_and_insert_entry) and the reserved
field stripper (extra_skip_type), together with proofs of the spec's
claims about them.
-/

set_option autoImplicit false

namespace ToughDe

/-- Embeds Decoded of Hex, the key identifier type: an opaque byte buffer
(hex-decoded), externally rendered as a hex string.  Equality is exact byte
equality. -/
abbrev KeyId := List Nat

/-- An identifier-computation failure, carried opaquely.  Modelled from the
spec: computeId "fails with ComputationError"; the concrete error payload
(crate::schema::error internals of Key::key_id, not under src/) is opaque
here. -/
abbrev ComputeError := String

instance instDecEqExcept {e a : Type} [DecidableEq e] [DecidableEq a] :
    DecidableEq (Except e a) := fun x y =>
  match x, y with
  | .ok v, .ok w =>
    if h : v = w then isTrue (by rw [h]) else isFalse (by intro hc; cases hc; exact h rfl)
  | .error v, .error w =>
    if h : v = w then isTrue (by rw [h]) else isFalse (by intro hc; cases hc; exact h rfl)
  | .ok _, .error _ => isFalse (by intro hc; cases hc)
  | .error _, .ok _ => isFalse (by intro hc; cases hc)

/-- Modelled from the spec: Key is opaque key material "plus metadata"; the
only capability this core uses is computeId, "Key.computeId() -> KeyId,
fails with ComputationError" (crate::schema::key::Key is not under src/).
The tag field keeps distinct key records distinguishable. -/
structure Key where
  tag : Nat
  computeId : Except ComputeError KeyId
deriving DecidableEq, Repr

/-- The error cases of crate::schema::error::Error that de.rs produces:
InvalidKeyIdSnafu carries the declared and calculated ids hex-encoded,
DuplicateKeyIdSnafu carries the declared id hex-encoded, and the question
mark on key.key_id() propagates the identifier-computation failure. -/
inductive Error where
  | invalidKeyId (keyid : String) (calculated : String)
  | duplicateKeyId (keyid : String)
  | computeFailed (e : ComputeError)
deriving DecidableEq, Repr

/-- Embeds hex::encode on a byte buffer: two lowercase hex digits per byte. -/
def hexDigit (n : Nat) : Char :=
  if n < 10 then Char.ofNat (48 + n) else Char.ofNat (87 + n)

/-- Embeds hex::encode on a byte buffer: two lowercase hex digits per byte. -/
def hexEncode (bytes : List Nat) : String :=
  String.join (bytes.map (fun b => String.mk [hexDigit (b / 16 % 16), hexDigit (b % 16)]))

/-- Embeds std::collections::HashMap of KeyId to Key as an association list
with pairwise-distinct keys maintained by insert. -/
abbrev HMap := List (KeyId × Key)

/-- Embeds HashMap::get / membership: the entry for a key, if present. -/
def HMap.lookup : HMap → KeyId → Option Key
  | [], _ => none
  | (k, v) :: rest, a => if k = a then some v else HMap.lookup rest a

/-- Embeds HashMap::insert: stores the value under the key and returns the
previously stored value; if the key was present its value is updated in
place, otherwise the entry is appended fresh. -/
def HMap.insert : HMap → KeyId → Key → Option Key × HMap
  | [], a, v => (none, [(a, v)])
  | (k, w) :: rest, a, v =>
    if k = a then (some w, (a, v) :: rest)
    else
      let r := HMap.insert rest a v
      (r.1, (k, w) :: r.2)

/-- Embeds validate_and_insert_entry from de.rs: compute the key id from
the key contents (propagating a computation failure), fail with
InvalidKeyId on mismatch with the declared id, then insert and fail with
DuplicateKeyId when an entry for that id already existed.  The Rust
original mutates the map in place; here the updated map is returned on
success (on failure the whole decode aborts and the map is dropped). -/
def validate_and_insert_entry (keyid : KeyId) (key : Key) (map : HMap) :
    Except Error HMap := do
  let calculated ← key.computeId.mapError Error.computeFailed
  let keyid_hex := hexEncode keyid
  if keyid = calculated then
    let r := map.insert keyid key
    if r.1.isNone then
      pure r.2
    else
      .error (.duplicateKeyId keyid_hex)
  else
    .error (.invalidKeyId keyid_hex (hexEncode calculated))

/-- Embeds the loop of Visitor::visit_map: process the decoded entry pairs
strictly in input order, threading the accumulating map, stopping at the
first entry whose validation fails. -/
def visitMapGo : List (KeyId × Key) → HMap → Except Error HMap
  | [], map => pure map
  | (keyid, key) :: rest, map => do
    let map1 ← validate_and_insert_entry keyid key map
    visitMapGo rest map1

/-- Embeds deserialize_keys from de.rs applied to the sequence of
(declared id, key) pairs produced by the underlying format: visit_map
starting from the empty map. -/
def deserialize_keys (entries : List (KeyId × Key)) : Except Error HMap :=
  visitMapGo entries []

/-- A JSON-like value tree, embedding serde_json::Value for the extra
fields map: values are opaque pass-through data. -/
inductive Value where
  | null
  | bool (b : Bool)
  | num (n : Int)
  | str (s : String)
  | arr (xs : List Value)
  | obj (fields : List (String × Value))

/-- Embeds the string-keyed HashMap of extra fields as an association
list with pairwise-distinct keys (the HashMap invariant). -/
abbrev SMap := List (String × Value)

/-- Embeds HashMap::get on the extra fields map. -/
def SMap.lookup : SMap → String → Option Value
  | [], _ => none
  | (k, v) :: rest, a => if k = a then some v else SMap.lookup rest a

/-- Embeds HashMap::remove: drops the entry stored under the key, if any
(at most one, by the HashMap key-uniqueness invariant). -/
def SMap.remove : SMap → String → SMap
  | [], _ => []
  | (k, v) :: rest, a => if k = a then rest else (k, v) :: SMap.remove rest a

/-- The structural failure of the underlying generic map decode
(HashMap::deserialize), carried opaquely. -/
abbrev DecodeError := String

/-- Embeds extra_skip_type from de.rs: run the generic string-keyed map
decode (its outcome is the input here, the deserializer itself being the
ambient format's), propagate its failure with the question mark, remove
the "_type" entry, and return the rest. -/
def extra_skip_type (decoded : Except DecodeError SMap) : Except DecodeError SMap := do
  let map ← decoded
  pure (SMap.remove map "_type")

/-! Helper lemmas about the map embedding. -/

theorem HMap.lookup_none_iff (m : HMap) (a : KeyId) :
    HMap.lookup m a = none ↔ a ∉ m.map Prod.fst := by
  induction m with
  | nil => simp [HMap.lookup]
  | cons p rest ih =>
    obtain ⟨k, v⟩ := p
    by_cases h : k = a
    · subst h
      simp [HMap.lookup]
    · simp [HMap.lookup, h, ih, Ne.symm h]

theorem HMap.insert_fst (m : HMap) (a : KeyId) (v : Key) :
    (HMap.insert m a v).1 = HMap.lookup m a := by
  induction m with
  | nil => simp [HMap.insert, HMap.lookup]
  | cons p rest ih =>
    obtain ⟨k, w⟩ := p
    by_cases h : k = a
    · simp [HMap.insert, HMap.lookup, h]
    · simp [HMap.insert, HMap.lookup, h, ih]

theorem HMap.insert_of_lookup_none (m : HMap) (a : KeyId) (v : Key)
    (h : HMap.lookup m a = none) :
    HMap.insert m a v = (none, m ++ [(a, v)]) := by
  induction m with
  | nil => simp [HMap.insert]
  | cons p rest ih =>
    obtain ⟨k, w⟩ := p
    by_cases hk : k = a
    · simp [HMap.lookup, hk] at h
    · simp [HMap.lookup, hk] at h
      simp [HMap.insert, hk, ih h]

theorem HMap.lookup_insert_self (m : HMap) (a : KeyId) (v : Key) :
    HMap.lookup (HMap.insert m a v).2 a = some v := by
  induction m with
  | nil => simp [HMap.insert, HMap.lookup]
  | cons p rest ih =>
    obtain ⟨k, w⟩ := p
    by_cases h : k = a
    · simp [HMap.insert, HMap.lookup, h]
    · simp [HMap.insert, HMap.lookup, h, ih]

/-! Characterizations of a single validation step. -/

theorem validate_ok_iff (kid : KeyId) (key : Key) (m m' : HMap) :
    validate_and_insert_entry kid key m = .ok m' ↔
      key.computeId = .ok kid ∧ HMap.lookup m kid = none ∧ m' = m ++ [(kid, key)] := by
  unfold validate_and_insert_entry
  cases hc : key.computeId with
  | error e =>
    simp [Except.mapError, Bind.bind, Except.bind]
  | ok c =>
    by_cases hk : kid = c
    · subst hk
      cases hl : HMap.lookup m kid with
      | none =>
        simp [Except.mapError, Bind.bind, Except.bind, HMap.insert_fst, hl,
          HMap.insert_of_lookup_none m kid key hl, Pure.pure, Except.pure, eq_comm]
      | some w =>
        simp [Except.mapError, Bind.bind, Except.bind, HMap.insert_fst, hl]
    · simp [Except.mapError, Bind.bind, Except.bind, hk]
      intro h
      cases h
      exact absurd rfl hk

theorem validate_compute_error (kid : KeyId) (key : Key) (m : HMap) (e : ComputeError)
    (hc : key.computeId = .error e) :
    validate_and_insert_entry kid key m = .error (.computeFailed e) := by
  unfold validate_and_insert_entry
  simp [hc, Except.mapError, Bind.bind, Except.bind]

theorem validate_mismatch (kid : KeyId) (key : Key) (m : HMap) (c : KeyId)
    (hc : key.computeId = .ok c) (hne : kid ≠ c) :
    validate_and_insert_entry kid key m
      = .error (.invalidKeyId (hexEncode kid) (hexEncode c)) := by
  unfold validate_and_insert_entry
  simp [hc, Except.mapError, Bind.bind, Except.bind, hne]

theorem validate_duplicate (kid : KeyId) (key : Key) (m : HMap) (w : Key)
    (hc : key.computeId = .ok kid) (hl : HMap.lookup m kid = some w) :
    validate_and_insert_entry kid key m = .error (.duplicateKeyId (hexEncode kid)) := by
  unfold validate_and_insert_entry
  simp [hc, Except.mapError, Bind.bind, Except.bind, HMap.insert_fst, hl]

/-! Lemmas about the whole visit_map loop. -/

theorem visitMapGo_append (a b : List (KeyId × Key)) (m : HMap) :
    visitMapGo (a ++ b) m = (visitMapGo a m).bind (fun m1 => visitMapGo b m1) := by
  induction a generalizing m with
  | nil => simp [visitMapGo, Pure.pure, Except.pure, Except.bind]
  | cons p rest ih =>
    obtain ⟨kid, key⟩ := p
    simp only [List.cons_append, visitMapGo, Bind.bind]
    cases validate_and_insert_entry kid key m with
    | error e => simp [Except.bind]
    | ok m1 => simp [Except.bind, ih]

theorem visitMapGo_ok_append (entries : List (KeyId × Key)) (m0 : HMap)
    (hc : ∀ p ∈ entries, p.2.computeId = .ok p.1)
    (hd : (m0.map Prod.fst ++ entries.map Prod.fst).Nodup) :
    visitMapGo entries m0 = .ok (m0 ++ entries) := by
  induction entries generalizing m0 with
  | nil => simp [visitMapGo, Pure.pure, Except.pure]
  | cons p rest ih =>
    obtain ⟨kid, key⟩ := p
    have hck : key.computeId = .ok kid := hc (kid, key) (List.mem_cons_self _ _)
    have hfresh : kid ∉ m0.map Prod.fst := by
      intro hmem
      have : (m0.map Prod.fst ++ kid :: rest.map Prod.fst).Nodup := by simpa using hd
      rcases List.nodup_append.mp this with ⟨_, _, hdisj⟩
      exact hdisj hmem (List.mem_cons_self _ _)
    have hl : HMap.lookup m0 kid = none := (HMap.lookup_none_iff m0 kid).mpr hfresh
    have hstep : validate_and_insert_entry kid key m0 = .ok (m0 ++ [(kid, key)]) :=
      (validate_ok_iff kid key m0 _).mpr ⟨hck, hl, rfl⟩
    have hd1 : ((m0 ++ [(kid, key)]).map Prod.fst ++ rest.map Prod.fst).Nodup := by
      simpa using hd
    have := ih (m0 ++ [(kid, key)]) (fun p hp => hc p (List.mem_cons_of_mem _ hp)) hd1
    simp [visitMapGo, Bind.bind, hstep, Except.bind, this]

theorem visitMapGo_inv (entries : List (KeyId × Key)) (m0 m : HMap)
    (h : visitMapGo entries m0 = .ok m)
    (hv : ∀ p ∈ m0, p.2.computeId = .ok p.1)
    (hnd : (m0.map Prod.fst).Nodup) :
    (∀ p ∈ m, p.2.computeId = .ok p.1) ∧ (m.map Prod.fst).Nodup := by
  induction entries generalizing m0 with
  | nil =>
    simp [visitMapGo, Pure.pure, Except.pure] at h
    subst h
    exact ⟨hv, hnd⟩
  | cons p rest ih =>
    obtain ⟨kid, key⟩ := p
    cases hstep : validate_and_insert_entry kid key m0 with
    | error e => simp [visitMapGo, Bind.bind, hstep, Except.bind] at h
    | ok m1 =>
      obtain ⟨hck, hl, hm1⟩ := (validate_ok_iff kid key m0 m1).mp hstep
      subst hm1
      have hfresh : kid ∉ m0.map Prod.fst := (HMap.lookup_none_iff m0 kid).mp hl
      have hv1 : ∀ p ∈ m0 ++ [(kid, key)], p.2.computeId = .ok p.1 := by
        intro p hp
        rcases List.mem_append.mp hp with hp0 | hp1
        · exact hv p hp0
        · simp at hp1
          subst hp1
          exact hck
      have hnd1 : ((m0 ++ [(kid, key)]).map Prod.fst).Nodup := by
        simp only [List.map_append, List.map_cons, List.map_nil]
        exact List.Nodup.append hnd (List.nodup_singleton kid)
          (fun a ha hb => by simp at hb; subst hb; exact hfresh ha)
      have hrest : visitMapGo rest (m0 ++ [(kid, key)]) = .ok m := by
        simpa [visitMapGo, Bind.bind, hstep, Except.bind] using h
      exact ih (m0 ++ [(kid, key)]) hrest hv1 hnd1

theorem visitMapGo_dup (entries : List (KeyId × Key)) (m0 : HMap)
    (hc : ∀ p ∈ entries, p.2.computeId = .ok p.1)
    (hnd : (m0.map Prod.fst).Nodup)
    (hdup : ¬ (m0.map Prod.fst ++ entries.map Prod.fst).Nodup) :
    ∃ id, visitMapGo entries m0 = .error (.duplicateKeyId (hexEncode id)) ∧
      2 ≤ (m0.map Prod.fst ++ entries.map Prod.fst).count id := by
  induction entries generalizing m0 with
  | nil =>
    simp at hdup
    exact absurd hnd hdup
  | cons p rest ih =>
    obtain ⟨kid, key⟩ := p
    have hck : key.computeId = .ok kid := hc (kid, key) (List.mem_cons_self _ _)
    cases hl : HMap.lookup m0 kid with
    | some w =>
      have hmem : kid ∈ m0.map Prod.fst := by
        by_contra hno
        rw [(HMap.lookup_none_iff m0 kid).mpr hno] at hl
        cases hl
      refine ⟨kid, ?_, ?_⟩
      · have hstep := validate_duplicate kid key m0 w hck hl
        simp [visitMapGo, Bind.bind, hstep, Except.bind]
      · have h1 : 0 < (m0.map Prod.fst).count kid := List.count_pos_iff.mpr hmem
        simp only [List.map_cons, List.count_append, List.count_cons_self]
        omega
    | none =>
      have hfresh : kid ∉ m0.map Prod.fst := (HMap.lookup_none_iff m0 kid).mp hl
      have hstep : validate_and_insert_entry kid key m0 = .ok (m0 ++ [(kid, key)]) :=
        (validate_ok_iff kid key m0 _).mpr ⟨hck, hl, rfl⟩
      have hnd1 : ((m0 ++ [(kid, key)]).map Prod.fst).Nodup := by
        simp only [List.map_append, List.map_cons, List.map_nil]
        exact List.Nodup.append hnd (List.nodup_singleton kid)
          (fun a ha hb => by simp at hb; subst hb; exact hfresh ha)
      have hdup1 : ¬ (((m0 ++ [(kid, key)]).map Prod.fst) ++ rest.map Prod.fst).Nodup := by
        simpa using hdup
      obtain ⟨id, hrun, hcount⟩ :=
        ih (m0 ++ [(kid, key)]) (fun p hp => hc p (List.mem_cons_of_mem _ hp)) hnd1 hdup1
      refine ⟨id, ?_, ?_⟩
      · simp [visitMapGo, Bind.bind, hstep, Except.bind, hrun]
      · simpa using hcount

/-! Helper lemmas about the extra fields map. -/

theorem SMap.lookup_eq_none_iff (m : SMap) (a : String) :
    SMap.lookup m a = none ↔ a ∉ m.map Prod.fst := by
  induction m with
  | nil => simp [SMap.lookup]
  | cons p rest ih =>
    obtain ⟨k, v⟩ := p
    by_cases h : k = a
    · subst h
      simp [SMap.lookup]
    · simp [SMap.lookup, h, ih, Ne.symm h]

theorem SMap.lookup_remove_ne (m : SMap) (a k : String) (h : k ≠ a) :
    SMap.lookup (SMap.remove m a) k = SMap.lookup m k := by
  induction m with
  | nil => simp [SMap.remove]
  | cons p rest ih =>
    obtain ⟨k1, v⟩ := p
    by_cases h1 : k1 = a
    · subst h1
      simp [SMap.remove, SMap.lookup, Ne.symm h]
    · by_cases h2 : k1 = k
      · subst h2
        simp [SMap.remove, SMap.lookup, h1]
      · simp [SMap.remove, SMap.lookup, h1, h2, ih]

theorem SMap.lookup_remove_self (m : SMap) (a : String)
    (hnd : (m.map Prod.fst).Nodup) :
    SMap.lookup (SMap.remove m a) a = none := by
  induction m with
  | nil => simp [SMap.remove, SMap.lookup]
  | cons p rest ih =>
    obtain ⟨k, v⟩ := p
    simp only [List.map_cons, List.nodup_cons] at hnd
    by_cases h : k = a
    · subst h
      simp only [SMap.remove, if_pos rfl]
      exact (SMap.lookup_eq_none_iff rest k).mpr hnd.1
    · simp [SMap.remove, SMap.lookup, h, ih hnd.2]

theorem SMap.remove_of_lookup_none (m : SMap) (a : String)
    (h : SMap.lookup m a = none) :
    SMap.remove m a = m := by
  induction m with
  | nil => simp [SMap.remove]
  | cons p rest ih =>
    obtain ⟨k, v⟩ := p
    by_cases hk : k = a
    · simp [SMap.lookup, hk] at h
    · simp [SMap.lookup, hk] at h
      simp [SMap.remove, hk, ih h]

/-! The claims. -/

/-- C1: whenever deserialize_keys succeeds, every entry of the returned map
re-verifies by recomputation (the key's computeId succeeds and equals the
identifier it is stored under) and the stored identifiers are pairwise
distinct. -/
theorem C1_success_map_self_consistent (entries : List (KeyId × Key)) (m : HMap)
    (h : deserialize_keys entries = .ok m) :
    (∀ p ∈ m, p.2.computeId = .ok p.1) ∧ (m.map Prod.fst).Nodup :=
  visitMapGo_inv entries [] m h (fun p hp => absurd hp (List.not_mem_nil p)) List.nodup_nil

/-- Witness for C1 at a concrete one-entry input. -/
theorem C1_success_map_self_consistent_witness :
    (∀ p ∈ ([([171], Key.mk 1 (Except.ok [171]))] : HMap), p.2.computeId = .ok p.1) ∧
    (([([171], Key.mk 1 (Except.ok [171]))] : HMap).map Prod.fst).Nodup :=
  C1_success_map_self_consistent [([171], Key.mk 1 (Except.ok [171]))]
    [([171], Key.mk 1 (Except.ok [171]))] (by decide)

/-- C2: when every pair before the offending one validates and the offending
pair's key id computes successfully to a value different from the declared
identifier, deserialize_keys fails with InvalidKeyId carrying the declared
and the computed identifier hex-encoded, and returns no map. -/
theorem C2_mismatch_fails_invalid_keyid (pre : List (KeyId × Key)) (kid : KeyId)
    (key : Key) (suf : List (KeyId × Key)) (c : KeyId)
    (hpre_ok : ∀ p ∈ pre, p.2.computeId = .ok p.1)
    (hpre_nd : (pre.map Prod.fst).Nodup)
    (hc : key.computeId = .ok c)
    (hne : kid ≠ c) :
    deserialize_keys (pre ++ (kid, key) :: suf)
      = .error (.invalidKeyId (hexEncode kid) (hexEncode c)) := by
  have hpre : visitMapGo pre [] = .ok pre :=
    visitMapGo_ok_append pre [] hpre_ok (by simpa using hpre_nd)
  have hstep := validate_mismatch kid key pre c hc hne
  show visitMapGo (pre ++ (kid, key) :: suf) [] = _
  rw [visitMapGo_append]
  simp [hpre, Except.bind, visitMapGo, Bind.bind, hstep]

/-- Witness for C2: declared id ab, computed id ff. -/
theorem C2_mismatch_fails_invalid_keyid_witness :
    deserialize_keys ([] ++ ([171], Key.mk 1 (Except.ok [255])) :: [])
      = .error (.invalidKeyId (hexEncode [171]) (hexEncode [255])) :=
  C2_mismatch_fails_invalid_keyid [] [171] (Key.mk 1 (Except.ok [255])) [] [255]
    (fun p hp => absurd hp (List.not_mem_nil p)) List.nodup_nil rfl (by decide)

/-- C3: when every pair is individually self-consistent but two pairs share
a declared identifier, deserialize_keys fails with DuplicateKeyId carrying
an identifier that occurs at least twice among the declared identifiers,
and returns no map. -/
theorem C3_duplicate_fails_duplicate_keyid (entries : List (KeyId × Key))
    (hc : ∀ p ∈ entries, p.2.computeId = .ok p.1)
    (hdup : ¬ (entries.map Prod.fst).Nodup) :
    ∃ id, deserialize_keys entries = .error (.duplicateKeyId (hexEncode id)) ∧
      2 ≤ (entries.map Prod.fst).count id := by
  have h := visitMapGo_dup entries [] hc List.nodup_nil (by simpa using hdup)
  simpa using h

/-- Witness for C3 at a concrete two-entry input sharing the id ab. -/
theorem C3_duplicate_fails_duplicate_keyid_witness :
    ∃ id,
      deserialize_keys [([171], Key.mk 1 (Except.ok [171])), ([171], Key.mk 2 (Except.ok [171]))]
        = .error (.duplicateKeyId (hexEncode id)) ∧
      2 ≤ (([([171], Key.mk 1 (Except.ok [171])), ([171], Key.mk 2 (Except.ok [171]))].map
        Prod.fst : List KeyId).count id) :=
  C3_duplicate_fails_duplicate_keyid
    [([171], Key.mk 1 (Except.ok [171])), ([171], Key.mk 2 (Except.ok [171]))]
    (by decide) (by decide)

/-- C4: when all declared identifiers are pairwise distinct and each equals
the computed id of its key, deserialize_keys succeeds and the returned map
has exactly as many entries as the input. -/
theorem C4_no_silent_loss (entries : List (KeyId × Key))
    (hc : ∀ p ∈ entries, p.2.computeId = .ok p.1)
    (hd : (entries.map Prod.fst).Nodup) :
    ∃ m, deserialize_keys entries = .ok m ∧ m.length = entries.length := by
  refine ⟨entries, ?_, rfl⟩
  have h := visitMapGo_ok_append entries [] hc (by simpa using hd)
  simpa using h

/-- Witness for C4 at a concrete two-entry input. -/
theorem C4_no_silent_loss_witness :
    ∃ m,
      deserialize_keys [([171], Key.mk 1 (Except.ok [171])), ([255], Key.mk 2 (Except.ok [255]))]
        = .ok m ∧
      m.length = [([171], Key.mk 1 (Except.ok [171])), ([255], Key.mk 2 (Except.ok [255]))].length :=
  C4_no_silent_loss [([171], Key.mk 1 (Except.ok [171])), ([255], Key.mk 2 (Except.ok [255]))]
    (by decide) (by decide)

/-- C5: when every pair before the offending one validates and the offending
pair's computeId itself fails, deserialize_keys fails with the propagated
computation failure, which is not an InvalidKeyId mismatch. -/
theorem C5_compute_error_propagated (pre : List (KeyId × Key)) (kid : KeyId)
    (key : Key) (suf : List (KeyId × Key)) (e : ComputeError)
    (hpre_ok : ∀ p ∈ pre, p.2.computeId = .ok p.1)
    (hpre_nd : (pre.map Prod.fst).Nodup)
    (hc : key.computeId = .error e) :
    deserialize_keys (pre ++ (kid, key) :: suf) = .error (.computeFailed e) ∧
      ∀ a b, (Error.computeFailed e) ≠ .invalidKeyId a b := by
  have hpre : visitMapGo pre [] = .ok pre :=
    visitMapGo_ok_append pre [] hpre_ok (by simpa using hpre_nd)
  have hstep := validate_compute_error kid key pre e hc
  constructor
  · show visitMapGo (pre ++ (kid, key) :: suf) [] = _
    rw [visitMapGo_append]
    simp [hpre, Except.bind, visitMapGo, Bind.bind, hstep]
  · intro a b h
    cases h

/-- Witness for C5: the key id computation fails with an opaque error. -/
theorem C5_compute_error_propagated_witness :
    deserialize_keys ([] ++ ([171], Key.mk 1 (Except.error "bad key material")) :: [])
      = .error (.computeFailed "bad key material") ∧
    ∀ a b, (Error.computeFailed "bad key material") ≠ .invalidKeyId a b :=
  C5_compute_error_propagated [] [171] (Key.mk 1 (Except.error "bad key material")) []
    "bad key material" (fun p hp => absurd hp (List.not_mem_nil p)) List.nodup_nil rfl

/-- C6: validation proceeds strictly in input order and short-circuits: if
the pairs before p all validate (yielding accumulated map m) and p's
validation step fails with err, then the whole decode fails with exactly
err, and the outcome is the same whatever pairs follow p. -/
theorem C6_in_order_short_circuit (pre : List (KeyId × Key)) (p : KeyId × Key)
    (suf1 suf2 : List (KeyId × Key)) (m : HMap) (err : Error)
    (hpre : visitMapGo pre [] = .ok m)
    (herr : validate_and_insert_entry p.1 p.2 m = .error err) :
    deserialize_keys (pre ++ p :: suf1) = .error err ∧
      deserialize_keys (pre ++ p :: suf1) = deserialize_keys (pre ++ p :: suf2) := by
  obtain ⟨kid, key⟩ := p
  have h1 : ∀ suf, deserialize_keys (pre ++ (kid, key) :: suf) = .error err := by
    intro suf
    show visitMapGo (pre ++ (kid, key) :: suf) [] = _
    rw [visitMapGo_append]
    simp [hpre, Except.bind, visitMapGo, Bind.bind, herr]
  exact ⟨h1 suf1, (h1 suf1).trans (h1 suf2).symm⟩

/-- Witness for C6: a mismatching pair after one good pair, with two
different suffixes. -/
theorem C6_in_order_short_circuit_witness :
    deserialize_keys ([([171], Key.mk 1 (Except.ok [171]))] ++
        ([10], Key.mk 2 (Except.ok [255])) :: [([3], Key.mk 3 (Except.ok [3]))])
      = .error (.invalidKeyId "0a" "ff") ∧
    deserialize_keys ([([171], Key.mk 1 (Except.ok [171]))] ++
        ([10], Key.mk 2 (Except.ok [255])) :: [([3], Key.mk 3 (Except.ok [3]))])
      = deserialize_keys ([([171], Key.mk 1 (Except.ok [171]))] ++
        ([10], Key.mk 2 (Except.ok [255])) :: []) :=
  C6_in_order_short_circuit [([171], Key.mk 1 (Except.ok [171]))]
    ([10], Key.mk 2 (Except.ok [255])) [([3], Key.mk 3 (Except.ok [3]))] []
    [([171], Key.mk 1 (Except.ok [171]))] (.invalidKeyId "0a" "ff") (by decide) (by decide)

/-- C7 counterexample: at the moment the duplicate check fires, the slot
does not hold the first occurrence's key.  After the first pair the slot
holds key 1; processing the duplicate pair, the detecting insert (whose
returned prior value the check inspects) has already replaced the slot's
value, so the map state at the check holds key 2 while the decode fails
with DuplicateKeyId. -/
theorem C7_first_wins_counterexample :
    visitMapGo [([171], Key.mk 1 (Except.ok [171]))] []
      = .ok [([171], Key.mk 1 (Except.ok [171]))] ∧
    validate_and_insert_entry [171] (Key.mk 2 (Except.ok [171]))
      [([171], Key.mk 1 (Except.ok [171]))] = .error (.duplicateKeyId "ab") ∧
    HMap.lookup
      (HMap.insert [([171], Key.mk 1 (Except.ok [171]))] [171] (Key.mk 2 (Except.ok [171]))).2
      [171] = some (Key.mk 2 (Except.ok [171])) ∧
    Key.mk 2 (Except.ok [171]) ≠ Key.mk 1 (Except.ok [171]) := by
  refine ⟨by decide, by decide, by decide, by decide⟩

/-- C7 amended: the first occurrence's key is committed in the map slot
before the duplicate pair is processed; the duplicate-detecting insert
returns that first key (which is what triggers detection) while leaving
the later key in the slot, and the decode then fails with DuplicateKeyId
so no map is returned. -/
theorem C7_first_committed_insert_returns_it (pre : List (KeyId × Key)) (kid : KeyId)
    (k2 : Key) (suf : List (KeyId × Key)) (m : HMap) (k1 : Key)
    (hpre : visitMapGo pre [] = .ok m)
    (hslot : HMap.lookup m kid = some k1)
    (hc : k2.computeId = .ok kid) :
    (HMap.insert m kid k2).1 = some k1 ∧
    HMap.lookup (HMap.insert m kid k2).2 kid = some k2 ∧
    deserialize_keys (pre ++ (kid, k2) :: suf) = .error (.duplicateKeyId (hexEncode kid)) := by
  refine ⟨by rw [HMap.insert_fst, hslot], HMap.lookup_insert_self m kid k2, ?_⟩
  have hstep := validate_duplicate kid k2 m k1 hc hslot
  show visitMapGo (pre ++ (kid, k2) :: suf) [] = _
  rw [visitMapGo_append]
  simp [hpre, Except.bind, visitMapGo, Bind.bind, hstep]

/-- Witness for the amended C7 at the concrete duplicate input. -/
theorem C7_first_committed_insert_returns_it_witness :
    (HMap.insert [([171], Key.mk 1 (Except.ok [171]))] [171] (Key.mk 2 (Except.ok [171]))).1
      = some (Key.mk 1 (Except.ok [171])) ∧
    HMap.lookup
      (HMap.insert [([171], Key.mk 1 (Except.ok [171]))] [171] (Key.mk 2 (Except.ok [171]))).2
      [171] = some (Key.mk 2 (Except.ok [171])) ∧
    deserialize_keys ([([171], Key.mk 1 (Except.ok [171]))] ++
        ([171], Key.mk 2 (Except.ok [171])) :: [])
      = .error (.duplicateKeyId (hexEncode [171])) :=
  C7_first_committed_insert_returns_it [([171], Key.mk 1 (Except.ok [171]))] [171]
    (Key.mk 2 (Except.ok [171])) [] [([171], Key.mk 1 (Except.ok [171]))]
    (Key.mk 1 (Except.ok [171])) (by decide) (by decide) rfl

/-- C8: on a successfully decoded string-keyed mapping, extra_skip_type
returns exactly the mapping minus the reserved key: other entries are
unchanged, the reserved key is gone, and when the reserved key is absent
the result equals the plain generic decode of the input. -/
theorem C8_extra_skip_type_minus_reserved (m : SMap)
    (hnd : (m.map Prod.fst).Nodup) :
    extra_skip_type (.ok m) = .ok (SMap.remove m "_type") ∧
    (∀ k, k ≠ "_type" → SMap.lookup (SMap.remove m "_type") k = SMap.lookup m k) ∧
    SMap.lookup (SMap.remove m "_type") "_type" = none ∧
    (SMap.lookup m "_type" = none → extra_skip_type (.ok m) = .ok m) := by
  refine ⟨rfl, fun k hk => SMap.lookup_remove_ne m "_type" k hk,
    SMap.lookup_remove_self m "_type" hnd, fun habs => ?_⟩
  show Except.ok (SMap.remove m "_type") = Except.ok m
  rw [SMap.remove_of_lookup_none m "_type" habs]

/-- Witness for C8 at the spec's Scenario D input. -/
theorem C8_extra_skip_type_minus_reserved_witness :
    extra_skip_type (.ok [("_type", Value.str "root"), ("foo", Value.num 1)])
      = .ok (SMap.remove [("_type", Value.str "root"), ("foo", Value.num 1)] "_type") ∧
    (∀ k, k ≠ "_type" →
      SMap.lookup (SMap.remove [("_type", Value.str "root"), ("foo", Value.num 1)] "_type") k
        = SMap.lookup [("_type", Value.str "root"), ("foo", Value.num 1)] k) ∧
    SMap.lookup (SMap.remove [("_type", Value.str "root"), ("foo", Value.num 1)] "_type") "_type"
      = none ∧
    (SMap.lookup [("_type", Value.str "root"), ("foo", Value.num 1)] "_type" = none →
      extra_skip_type (.ok [("_type", Value.str "root"), ("foo", Value.num 1)])
        = .ok [("_type", Value.str "root"), ("foo", Value.num 1)]) :=
  C8_extra_skip_type_minus_reserved [("_type", Value.str "root"), ("foo", Value.num 1)]
    (by decide)

/-- C9: extra_skip_type fails exactly when the underlying generic map
decode fails, propagating that failure unchanged; on every successfully
decoded mapping it succeeds, whatever the reserved key's presence or its
value's shape. -/
theorem C9_extra_skip_type_error_only_structural :
    (∀ e : DecodeError, extra_skip_type (.error e) = .error e) ∧
    (∀ m : SMap, extra_skip_type (.ok m) = .ok (SMap.remove m "_type")) :=
  ⟨fun _ => rfl, fun _ => rfl⟩

/-- C10: when a pair's declared identifier both duplicates an earlier
committed identifier and mismatches its key's computed identifier, the
decode fails with InvalidKeyId, never DuplicateKeyId: the mismatch check
runs before the duplicate-insertion check. -/
theorem C10_mismatch_before_duplicate (pre : List (KeyId × Key)) (kid : KeyId)
    (key : Key) (suf : List (KeyId × Key)) (c : KeyId) (m : HMap) (w : Key)
    (hpre : visitMapGo pre [] = .ok m)
    (hdupkey : HMap.lookup m kid = some w)
    (hc : key.computeId = .ok c)
    (hne : kid ≠ c) :
    deserialize_keys (pre ++ (kid, key) :: suf)
      = .error (.invalidKeyId (hexEncode kid) (hexEncode c)) ∧
    ∀ s, deserialize_keys (pre ++ (kid, key) :: suf) ≠ .error (.duplicateKeyId s) := by
  have hstep := validate_mismatch kid key m c hc hne
  have h1 : deserialize_keys (pre ++ (kid, key) :: suf)
      = .error (.invalidKeyId (hexEncode kid) (hexEncode c)) := by
    show visitMapGo (pre ++ (kid, key) :: suf) [] = _
    rw [visitMapGo_append]
    simp [hpre, Except.bind, visitMapGo, Bind.bind, hstep]
  refine ⟨h1, fun s hcontra => ?_⟩
  rw [h1] at hcontra
  simp at hcontra

/-- Witness for C10: second pair duplicates the id ab and mismatches its
computed id ff. -/
theorem C10_mismatch_before_duplicate_witness :
    deserialize_keys ([([171], Key.mk 1 (Except.ok [171]))] ++
        ([171], Key.mk 2 (Except.ok [255])) :: [])
      = .error (.invalidKeyId (hexEncode [171]) (hexEncode [255])) ∧
    ∀ s, deserialize_keys ([([171], Key.mk 1 (Except.ok [171]))] ++
        ([171], Key.mk 2 (Except.ok [255])) :: []) ≠ .error (.duplicateKeyId s) :=
  C10_mismatch_before_duplicate [([171], Key.mk 1 (Except.ok [171]))] [171]
    (Key.mk 2 (Except.ok [255])) [] [255] [([171], Key.mk 1 (Except.ok [171]))]
    (Key.mk 1 (Except.ok [171])) (by decide) (by decide) rfl (by decide)

end ToughDe
